import Mathlib

/-!
Shallow embedding of the obhq/exfat read-only exFAT driver, covering the boot-sector
checks (src/src/lib.rs), the FAT chain iterator (src/src/fat.rs), the cluster-chain
reader (src/src/cluster.rs) and the file object (src/src/file.rs).  Machine integers
are modelled as `Nat`; the two places where a Rust `u64` operation can actually wrap
are modelled with an explicit `% 2 ^ 64` and marked in comments.  Fallible operations
return `Except`; operations that mutate the Rust object return the final state next to
the result, so that error atomicity is expressible.
-/

deriving instance DecidableEq for Except

namespace ExFat

/-- The size of the `u64` value space; Rust `u64` arithmetic wraps modulo this value in
release builds. -/
def u64Size : Nat := 2 ^ 64

/-- Boot-sector parameters, as filled in by the struct literal in src/src/lib.rs lines
47-83 (the struct itself lives in param.rs, which is not under src/). -/
structure Params where
  fat_offset : Nat
  fat_length : Nat
  cluster_heap_offset : Nat
  cluster_count : Nat
  first_cluster_of_root_directory : Nat
  volume_flags : Nat
  bytes_per_sector : Nat
  sectors_per_cluster : Nat
  number_of_fats : Nat
deriving DecidableEq

/-- Modelled from the spec: param.rs is missing from src/; spec §3 defines
`cluster_size = bytes_per_sector × sectors_per_cluster`. -/
def Params.cluster_size (p : Params) : Nat :=
  p.bytes_per_sector * p.sectors_per_cluster

/-- Modelled from the spec: param.rs is missing from src/; spec §3 defines
`cluster_offset(c) = (cluster_heap_offset + (c−2) × sectors_per_cluster) × bytes_per_sector`
for `c ∈ [2, cluster_count+1]`, otherwise undefined (error). -/
def Params.cluster_offset (p : Params) (c : Nat) : Option Nat :=
  if 2 ≤ c ∧ c ≤ p.cluster_count + 1 then
    some ((p.cluster_heap_offset + (c - 2) * p.sectors_per_cluster) * p.bytes_per_sector)
  else
    none

/-- Modelled from the spec: param.rs is missing from src/; spec §4.1 defines
`volume_flags.active_fat = bit 0`. -/
def Params.active_fat (p : Params) : Nat :=
  p.volume_flags % 2

/-- The clusters yielded by the first `fuel` calls of `ClusterChain::next`
(src/src/fat.rs lines 59-76): yield `next` and advance to `entries[next]`; stop when
`next < 2`, `next ≥ entries.len()` or `entries[next] == 0xfffffff7`.  The source
iterator has no fuel bound; `fuel` only truncates the observation, so an iterator that
never stops yields a list of length `fuel` here. -/
def chainTake (entries : List Nat) : Nat → Nat → List Nat
  | 0, _ => []
  | fuel + 1, next =>
    if h : next < 2 ∨ entries.length ≤ next then []
    else
      let e := entries.get ⟨next, by omega⟩
      if e = 0xfffffff7 then [] else next :: chainTake entries fuel e

/-- Whether the chain walk starting at `next` reaches one of its stop conditions within
`fuel` calls; when it does, `chainTake entries fuel next` is the entire chain that
`collect()` would materialize in src/src/cluster.rs line 44. -/
def chainStops (entries : List Nat) : Nat → Nat → Bool
  | 0, _ => false
  | fuel + 1, next =>
    if h : next < 2 ∨ entries.length ≤ next then true
    else
      let e := entries.get ⟨next, by omega⟩
      if e = 0xfffffff7 then true else chainStops entries fuel e

/-- State of `ClustersReader` (src/src/cluster.rs lines 9-14); the shared `exfat`
handle is passed separately as `Params` plus the FAT entry list. -/
structure ClustersReader where
  chain : List Nat
  data_length : Nat
  offset : Nat
deriving DecidableEq

/-- `cluster::NewError` (src/src/cluster.rs lines 157-163). -/
inductive NewError where
  | invalidFirstCluster
  | invalidDataLength
deriving DecidableEq

/-- `ClustersReader::new` (src/src/cluster.rs lines 17-70).  The FAT walk
`fat.get_cluster_chain(first_cluster).collect()` is represented by
`chainTake entries fuel first_cluster`; for a walk that stops within `fuel` this is
exactly the collected chain.  The count computation on line 39 adds in `u64`, which
wraps modulo `2 ^ 64` in release builds; the wrap is modelled explicitly. -/
def newClustersReader (p : Params) (entries : List Nat) (fuel : Nat) (first_cluster : Nat)
    (data_length : Option Nat) (no_fat_chain : Option Bool) :
    Except NewError ClustersReader :=
  if first_cluster < 2 then .error .invalidFirstCluster
  else
    let cluster_size := p.cluster_size
    if no_fat_chain.getD false then
      match data_length with
      | some v =>
        if 0 < v then
          let count := ((v + cluster_size - 1) % u64Size) / cluster_size
          .ok ⟨List.range' first_cluster count, v, 0⟩
        else .error .invalidDataLength
      | none => .error .invalidDataLength
    else
      let chain := chainTake entries fuel first_cluster
      if chain.isEmpty then .error .invalidFirstCluster
      else
        match data_length with
        | some v =>
          if cluster_size * chain.length < v then .error .invalidDataLength
          else .ok ⟨chain, v, 0⟩
        | none => .ok ⟨chain, p.bytes_per_sector * (p.sectors_per_cluster * chain.length), 0⟩

/-- Errors of `ClustersReader::read` (src/src/cluster.rs lines 117-152) other than a
failed partition read (the byte source is modelled as a total function). -/
inductive ReadError where
  /-- `ErrorKind::Other` naming the unavailable cluster (cluster.rs lines 134-139). -/
  | clusterUnavailable (cluster : Nat)
  /-- The source indexes `self.chain[..]` with `Vec` indexing (cluster.rs line 131),
  which panics when the index is out of bounds; the model surfaces that panic as a
  distinguished error value. -/
  | panicIndexOutOfBounds
deriving DecidableEq

/-- `ClustersReader::read` (src/src/cluster.rs lines 117-152) over a byte source
`disk : Nat → Nat` (partition byte at each offset; `read_exact` on it always
succeeds).  Returns the `read` result (count plus the bytes placed in the buffer) next
to the final reader state. -/
def clusterRead (p : Params) (disk : Nat → Nat) (r : ClustersReader) (bufLen : Nat) :
    Except ReadError (Nat × List Nat) × ClustersReader :=
  if bufLen = 0 ∨ r.offset = r.data_length then (.ok (0, []), r)
  else
    let cluster_size := p.cluster_size
    let cluster_remaining := cluster_size - r.offset % cluster_size
    let remaining := min cluster_remaining (r.data_length - r.offset)
    match r.chain.get? (r.offset / cluster_size) with
    | none => (.error .panicIndexOutOfBounds, r)
    | some cluster =>
      match p.cluster_offset cluster with
      | none => (.error (.clusterUnavailable cluster), r)
      | some v =>
        let off := v + r.offset % cluster_size
        let amount := min bufLen remaining
        (.ok (amount, (List.range amount).map fun i => disk (off + i)),
          { r with offset := r.offset + amount })

/-- `std::io::SeekFrom`. -/
inductive SeekFrom where
  | start (v : Nat)
  | fromEnd (v : Int)
  | current (v : Int)
deriving DecidableEq

/-- The seek error produced by both seek implementations
(`ErrorKind::InvalidInput`). -/
inductive SeekError where
  | invalidInput
deriving DecidableEq

/-- `Seek::seek` for `ClustersReader` (src/src/cluster.rs lines 78-104).  The add on
line 94 (`self.offset + (v as u64)`) is an unchecked `u64` add and wraps modulo
`2 ^ 64` in release builds; the wrap is modelled explicitly. -/
def clusterSeek (r : ClustersReader) (pos : SeekFrom) : Except SeekError Nat × ClustersReader :=
  match pos with
  | .start v =>
    let o := min v r.data_length
    (.ok o, { r with offset := o })
  | .fromEnd v =>
    if 0 ≤ v then (.ok r.data_length, { r with offset := r.data_length })
    else if v.natAbs ≤ r.data_length then
      let o := r.data_length - v.natAbs
      (.ok o, { r with offset := o })
    else (.error .invalidInput, r)
  | .current v =>
    if 0 ≤ v then
      let o := min ((r.offset + v.toNat) % u64Size) r.data_length
      (.ok o, { r with offset := o })
    else if v.natAbs ≤ r.offset then
      let o := r.offset - v.natAbs
      (.ok o, { r with offset := o })
    else (.error .invalidInput, r)

/-- The amount formula of the read contract: `min(buf.len(), cluster_size − within,
L − offset)` (spec §4.3; cluster.rs lines 127-143). -/
def readAmount (p : Params) (r : ClustersReader) (bufLen : Nat) : Nat :=
  min bufLen (min (p.cluster_size - r.offset % p.cluster_size) (r.data_length - r.offset))

/-- Modelled from the spec: entries.rs is missing from src/; spec §4.5 gives the
StreamExtension fields consumed by `File::new` (`general_secondary_flags` bit 1 =
no-fat-chain, `first_cluster`, `valid_data_length`, `data_length`). -/
structure StreamEntry where
  no_fat_chain : Bool
  first_cluster : Nat
  valid_data_length : Nat
  data_length : Nat
deriving DecidableEq

/-- The `Reader` variants held by a `File` (src/src/file.rs lines 137-141). -/
inductive FileReader where
  | empty
  | cluster (r : ClustersReader)
deriving DecidableEq

/-- `File` (src/src/file.rs lines 13-18); `name` and `timestamps` carry no behaviour
for the verified claims and are omitted. -/
structure FFile where
  len : Nat
  reader : FileReader
deriving DecidableEq

/-- `file::NewError` (src/src/file.rs lines 144-148). -/
inductive FileNewError where
  | createClustersReaderFailed (first_cluster : Nat) (len : Nat) (e : NewError)
deriving DecidableEq

/-- `File::new` (src/src/file.rs lines 21-53). -/
def newFile (p : Params) (entries : List Nat) (fuel : Nat) (stream : StreamEntry) :
    Except FileNewError FFile :=
  let first_cluster := stream.first_cluster
  let len := stream.valid_data_length
  if first_cluster = 0 then .ok ⟨len, .empty⟩
  else
    match newClustersReader p entries fuel first_cluster (some len) (some stream.no_fat_chain) with
    | .ok r => .ok ⟨len, .cluster r⟩
    | .error e => .error (.createClustersReaderFailed first_cluster len e)

/-- `Read::read` for `File` (src/src/file.rs lines 128-135); `io::Empty::read` always
returns 0. -/
def fileRead (p : Params) (disk : Nat → Nat) (f : FFile) (bufLen : Nat) :
    Except ReadError (Nat × List Nat) × FFile :=
  match f.reader with
  | .empty => (.ok (0, []), f)
  | .cluster r =>
    let res := clusterRead p disk r bufLen
    (res.1, { f with reader := .cluster res.2 })

/-- Rust `u64::saturating_add`. -/
def satAdd64 (a b : Nat) : Nat :=
  min (a + b) (u64Size - 1)

/-- `Seek::seek` for `File` (src/src/file.rs lines 73-107).  An empty file delegates
to `io::Empty::seek`, which returns `Ok(0)` for every argument.  For the cluster
variant the absolute offset is computed first (error paths leave the reader
untouched), then stored. -/
def fileSeek (f : FFile) (pos : SeekFrom) : Except SeekError Nat × FFile :=
  match f.reader with
  | .empty => (.ok 0, f)
  | .cluster r =>
    let res : Except SeekError Nat :=
      match pos with
      | .start v => .ok (min v r.data_length)
      | .fromEnd v =>
        if 0 ≤ v then .ok r.data_length
        else if v.natAbs ≤ r.data_length then .ok (r.data_length - v.natAbs)
        else .error .invalidInput
      | .current v =>
        if 0 ≤ v then .ok (min (satAdd64 r.offset v.toNat) r.data_length)
        else if v.natAbs ≤ r.offset then .ok (r.offset - v.natAbs)
        else .error .invalidInput
    match res with
    | .ok o => (.ok o, { f with reader := .cluster { r with offset := o } })
    | .error e => (.error e, f)

/-- `Seek::stream_position` for `File` (src/src/file.rs lines 118-125);
`io::Empty::stream_position` returns 0. -/
def fileStreamPosition (f : FFile) : Nat :=
  match f.reader with
  | .empty => 0
  | .cluster r => r.offset

/-- A sequential read loop: call `read` with a buffer of `bufLen` bytes until it
returns 0 and sum the returned counts.  `none` when an error occurs or `fuel` runs
out. -/
def readLoop (p : Params) (disk : Nat → Nat) (bufLen : Nat) :
    Nat → ClustersReader → Option Nat
  | 0, _ => none
  | fuel + 1, r =>
    match clusterRead p disk r bufLen with
    | (.ok (amount, _), r2) =>
      if amount = 0 then some 0 else (readLoop p disk bufLen fuel r2).map (amount + ·)
    | (.error _, _) => none

/-- Little-endian decoding of `n` bytes starting at index `i` (the byteorder `LE`
reads in src/src/lib.rs lines 48-53). -/
def readLE (boot : List Nat) (i : Nat) : Nat → Nat
  | 0 => 0
  | n + 1 => boot.getD i 0 + 256 * readLE boot (i + 1) n

/-- The constructors of `RootError` (src/src/lib.rs lines 305-365) reachable in the
modelled fragment of `Root::open`. -/
inductive RootError where
  | notExFat
  | invalidBytesPerSectorShift
  | invalidSectorsPerClusterShift
  | invalidNumberOfFats
  | tooManyAllocationBitmap
  | wrongAllocationBitmap
  | noAllocationBitmap
deriving DecidableEq

/-- The ASCII bytes of the file-system name `"EXFAT   "`. -/
def exfatSig : List Nat :=
  [0x45, 0x58, 0x46, 0x41, 0x54, 0x20, 0x20, 0x20]

/-- The signature check on src/src/lib.rs line 42: bytes `[3..11]` spell `EXFAT` with
three trailing spaces and bytes `[11..64]` are all zero. -/
def bootSigOk (boot : List Nat) : Bool :=
  ((List.range 8).all fun i => boot.getD (3 + i) 0 == exfatSig.getD i 0) &&
  ((List.range 53).all fun i => boot.getD (11 + i) 0 == 0)

/-- The boot-sector validation of `Root::open` (src/src/lib.rs lines 42-94), given the
512 boot bytes: signature, `BytesPerSectorShift`, `SectorsPerClusterShift`,
`NumberOfFats`, then the active-FAT policy check guarding `Fat::load`.  Success means
the `Params` literal was built and `Root::open` proceeds to load the FAT. -/
def checkBootSector (boot : List Nat) : Except RootError Params :=
  if bootSigOk boot = false then .error .notExFat
  else
    let b108 := boot.getD 108 0
    if ¬(9 ≤ b108 ∧ b108 ≤ 12) then .error .invalidBytesPerSectorShift
    else
      let b109 := boot.getD 109 0
      if ¬(b109 ≤ 25 - b108) then .error .invalidSectorsPerClusterShift
      else
        let b110 := boot.getD 110 0
        if ¬(b110 = 1 ∨ b110 = 2) then .error .invalidNumberOfFats
        else
          let p : Params :=
            { fat_offset := readLE boot 80 4
              fat_length := readLE boot 84 4
              cluster_heap_offset := readLE boot 88 4
              cluster_count := readLE boot 92 4
              first_cluster_of_root_directory := readLE boot 96 4
              volume_flags := readLE boot 106 2
              bytes_per_sector := 2 ^ b108
              sectors_per_cluster := 2 ^ b109
              number_of_fats := b110 }
          if p.active_fat = 0 ∨ p.number_of_fats = 2 then .ok p
          else .error .invalidNumberOfFats

/-- Processing of one AllocationBitmap root entry (src/src/lib.rs lines 133-161),
projected onto the `allocation_bitmaps` slot state (`true` = occupied) and the entry's
`BitmapFlags` byte. -/
def bitmapStep (st : Bool × Bool) (flags : Nat) : Except RootError (Bool × Bool) :=
  if st.2 then .error .tooManyAllocationBitmap
  else
    let index : Nat := if st.1 then 1 else 0
    if flags % 2 ≠ index then .error .wrongAllocationBitmap
    else if st.1 then .ok (st.1, true)
    else .ok (true, st.2)

/-- The bitmap slot state after a sequence of AllocationBitmap entries; the first
error aborts `Root::open`. -/
def runBitmaps (st : Bool × Bool) : List Nat → Except RootError (Bool × Bool)
  | [] => .ok st
  | f :: rest =>
    match bitmapStep st f with
    | .error e => .error e
    | .ok st2 => runBitmaps st2 rest

/-- The check at stream exhaustion (src/src/lib.rs lines 236-242): with two FATs the
second bitmap slot must be occupied, otherwise the first must be. -/
def finishBitmaps (number_of_fats : Nat) (st : Bool × Bool) : Except RootError Unit :=
  if number_of_fats = 2 then
    if st.2 = false then .error .noAllocationBitmap else .ok ()
  else if st.1 = false then .error .noAllocationBitmap else .ok ()

/-- A FAT whose entries 2 and 3 point at each other: an adversarial cycle
(`cluster_count = 2`). -/
def cycleFat : List Nat :=
  [0, 0, 3, 2]

/-- Concrete geometry for witnesses: 512-byte sectors, one sector per cluster, four
clusters in the heap. -/
def pEx : Params :=
  ⟨0, 0, 0, 4, 0, 0, 512, 1, 1⟩

/-- A 512-byte boot sector of zeros (the non-exFAT image of spec §8 scenario 6). -/
def bootZero : List Nat :=
  List.replicate 512 0

/-- A boot sector with a valid exFAT signature but an out-of-range
`BytesPerSectorShift` of 0 at byte 108. -/
def bootBadBps : List Nat :=
  [0, 0, 0] ++ exfatSig ++ List.replicate 501 0

/-- C10: seek errors are atomic.  Whenever `ClustersReader::seek` or `File::seek`
returns an `InvalidInput` error, the stream state (in particular the position reported
by `stream_position`) is exactly what it was before the failed call. -/
theorem seek_error_atomic :
    (∀ r pos e, (clusterSeek r pos).1 = .error e → (clusterSeek r pos).2 = r) ∧
    (∀ f pos e, (fileSeek f pos).1 = .error e →
      (fileSeek f pos).2 = f ∧ fileStreamPosition (fileSeek f pos).2 = fileStreamPosition f) := by
  constructor
  · intro r pos e h
    cases pos with
    | start v => simp [clusterSeek] at h
    | fromEnd v =>
      by_cases h0 : (0 : Int) ≤ v
      · simp [clusterSeek, h0] at h
      · by_cases h1 : v.natAbs ≤ r.data_length
        · simp [clusterSeek, h0, h1] at h
        · simp [clusterSeek, h0, h1]
    | current v =>
      by_cases h0 : (0 : Int) ≤ v
      · simp [clusterSeek, h0] at h
      · by_cases h1 : v.natAbs ≤ r.offset
        · simp [clusterSeek, h0, h1] at h
        · simp [clusterSeek, h0, h1]
  · intro f pos e h
    obtain ⟨len, reader⟩ := f
    cases reader with
    | empty => simp [fileSeek] at h
    | cluster r =>
      cases pos with
      | start v => simp [fileSeek] at h
      | fromEnd v =>
        by_cases h0 : (0 : Int) ≤ v
        · simp [fileSeek, h0] at h
        · by_cases h1 : v.natAbs ≤ r.data_length
          · simp [fileSeek, h0, h1] at h
          · simp [fileSeek, h0, h1]
      | current v =>
        by_cases h0 : (0 : Int) ≤ v
        · simp [fileSeek, h0] at h
        · by_cases h1 : v.natAbs ≤ r.offset
          · simp [fileSeek, h0, h1] at h
          · simp [fileSeek, h0, h1]

/-- Witness for `seek_error_atomic` at a concrete reader and a seek to before
position 0. -/
theorem seek_error_atomic_witness :
    (clusterSeek ⟨[2], 10, 0⟩ (.current (-1))).1 = .error .invalidInput ∧
    (clusterSeek ⟨[2], 10, 0⟩ (.current (-1))).2 = ⟨[2], 10, 0⟩ :=
  ⟨by decide, seek_error_atomic.1 ⟨[2], 10, 0⟩ (.current (-1)) .invalidInput (by decide)⟩

/-- C2 (amended): seek semantics of `ClustersReader::seek` and the non-empty arm of
`File::seek`: `Start(v)` clamps to `min(v, L)`; `End(v ≥ 0)` gives `L`; `End(v < 0)`
gives `L − |v|` when non-negative, else `InvalidInput`; `Current(v ≥ 0)` adds and
clamps to `L` (the cluster reader adds modulo `2^64`, the file saturating-adds);
`Current(v < 0)` gives `position − |v|` when non-negative, else `InvalidInput`.  An
empty file (`L = 0`) delegates to `io::Empty`, whose seek always succeeds and returns
0 — never `InvalidInput`. -/
theorem seek_contract :
    (∀ r v, clusterSeek r (.start v) =
      (.ok (min v r.data_length), { r with offset := min v r.data_length })) ∧
    (∀ r (v : Int), 0 ≤ v → clusterSeek r (.fromEnd v) =
      (.ok r.data_length, { r with offset := r.data_length })) ∧
    (∀ r (v : Int), v < 0 → v.natAbs ≤ r.data_length → clusterSeek r (.fromEnd v) =
      (.ok (r.data_length - v.natAbs), { r with offset := r.data_length - v.natAbs })) ∧
    (∀ r (v : Int), v < 0 → r.data_length < v.natAbs → clusterSeek r (.fromEnd v) =
      (.error .invalidInput, r)) ∧
    (∀ r (v : Int), 0 ≤ v → clusterSeek r (.current v) =
      (.ok (min ((r.offset + v.toNat) % u64Size) r.data_length),
        { r with offset := min ((r.offset + v.toNat) % u64Size) r.data_length })) ∧
    (∀ r (v : Int), v < 0 → v.natAbs ≤ r.offset → clusterSeek r (.current v) =
      (.ok (r.offset - v.natAbs), { r with offset := r.offset - v.natAbs })) ∧
    (∀ r (v : Int), v < 0 → r.offset < v.natAbs → clusterSeek r (.current v) =
      (.error .invalidInput, r)) ∧
    (∀ len rr v, fileSeek ⟨len, .cluster rr⟩ (.start v) =
      (.ok (min v rr.data_length),
        ⟨len, .cluster { rr with offset := min v rr.data_length }⟩)) ∧
    (∀ len rr (v : Int), 0 ≤ v → fileSeek ⟨len, .cluster rr⟩ (.fromEnd v) =
      (.ok rr.data_length, ⟨len, .cluster { rr with offset := rr.data_length }⟩)) ∧
    (∀ len rr (v : Int), v < 0 → v.natAbs ≤ rr.data_length →
      fileSeek ⟨len, .cluster rr⟩ (.fromEnd v) =
        (.ok (rr.data_length - v.natAbs),
          ⟨len, .cluster { rr with offset := rr.data_length - v.natAbs }⟩)) ∧
    (∀ len rr (v : Int), v < 0 → rr.data_length < v.natAbs →
      fileSeek ⟨len, .cluster rr⟩ (.fromEnd v) = (.error .invalidInput, ⟨len, .cluster rr⟩)) ∧
    (∀ len rr (v : Int), 0 ≤ v → fileSeek ⟨len, .cluster rr⟩ (.current v) =
      (.ok (min (satAdd64 rr.offset v.toNat) rr.data_length),
        ⟨len, .cluster { rr with offset := min (satAdd64 rr.offset v.toNat) rr.data_length }⟩)) ∧
    (∀ len rr (v : Int), v < 0 → v.natAbs ≤ rr.offset →
      fileSeek ⟨len, .cluster rr⟩ (.current v) =
        (.ok (rr.offset - v.natAbs), ⟨len, .cluster { rr with offset := rr.offset - v.natAbs }⟩)) ∧
    (∀ len rr (v : Int), v < 0 → rr.offset < v.natAbs →
      fileSeek ⟨len, .cluster rr⟩ (.current v) = (.error .invalidInput, ⟨len, .cluster rr⟩)) ∧
    (∀ len pos, fileSeek ⟨len, .empty⟩ pos = (.ok 0, ⟨len, .empty⟩)) := by
  refine ⟨?_, ?_, ?_, ?_, ?_, ?_, ?_, ?_, ?_, ?_, ?_, ?_, ?_, ?_, ?_⟩
  · intro r v; simp [clusterSeek]
  · intro r v h; simp [clusterSeek, h]
  · intro r v h h2; simp [clusterSeek, not_le.mpr h, h2]
  · intro r v h h2; simp [clusterSeek, not_le.mpr h, not_le.mpr h2]
  · intro r v h; simp [clusterSeek, h]
  · intro r v h h2; simp [clusterSeek, not_le.mpr h, h2]
  · intro r v h h2; simp [clusterSeek, not_le.mpr h, not_le.mpr h2]
  · intro len rr v; simp [fileSeek]
  · intro len rr v h; simp [fileSeek, h]
  · intro len rr v h h2; simp [fileSeek, not_le.mpr h, h2]
  · intro len rr v h h2; simp [fileSeek, not_le.mpr h, not_le.mpr h2]
  · intro len rr v h; simp [fileSeek, h]
  · intro len rr v h h2; simp [fileSeek, not_le.mpr h, h2]
  · intro len rr v h h2; simp [fileSeek, not_le.mpr h, not_le.mpr h2]
  · intro len pos; simp [fileSeek]

/-- Witness for `seek_contract`: a negative end-relative seek on a concrete reader and
a negative current-relative seek on a concrete file. -/
theorem seek_contract_witness :
    clusterSeek ⟨[2], 10, 7⟩ (.fromEnd (-3)) =
      (.ok (10 - (Int.natAbs (-3))), ⟨[2], 10, 10 - (Int.natAbs (-3))⟩) ∧
    fileSeek ⟨13, .cluster ⟨[2], 13, 5⟩⟩ (.current (-5)) =
      (.ok (5 - (Int.natAbs (-5))), ⟨13, .cluster ⟨[2], 13, 5 - (Int.natAbs (-5))⟩⟩) :=
  ⟨seek_contract.2.2.1 ⟨[2], 10, 7⟩ (-3) (by decide) (by decide),
   seek_contract.2.2.2.2.2.2.2.2.2.2.2.2.1 13 ⟨[2], 13, 5⟩ (-5) (by decide) (by decide)⟩

/-- Counterexample to C2 as stated: on an empty file (`L = 0`) a seek to before
position 0 does not fail with `InvalidInput`; `File::seek` delegates to
`io::Empty::seek`, which succeeds and returns 0. -/
theorem seek_empty_counterexample :
    fileSeek ⟨0, .empty⟩ (.fromEnd (-1)) = (.ok 0, ⟨0, .empty⟩) := rfl

theorem cycleFat_never_stops (n : Nat) :
    chainStops cycleFat n 2 = false ∧ chainStops cycleFat n 3 = false := by
  induction n with
  | zero => exact ⟨rfl, rfl⟩
  | succ n ih =>
    refine ⟨?_, ?_⟩
    · calc chainStops cycleFat (n + 1) 2 = chainStops cycleFat n 3 := rfl
        _ = false := ih.2
    · calc chainStops cycleFat (n + 1) 3 = chainStops cycleFat n 2 := rfl
        _ = false := ih.1

/-- C3 (code bug): the chain iterator has no cycle bound.  On the adversarial FAT
`[0, 0, 3, 2]` (`cluster_count = 2`, clusters 2 and 3 point at each other), five
consecutive `next()` calls starting from cluster 2 all yield — more than the claimed
bound `cluster_count + 2 = 4` — and no number of calls ever reaches a stop condition,
so `collect()` in `ClustersReader::new` loops forever. -/
theorem chain_cycle_unbounded :
    (chainTake cycleFat 5 2).length = 5 ∧ ∀ n, chainStops cycleFat n 2 = false :=
  ⟨by decide, fun n => (cycleFat_never_stops n).1⟩

theorem chainTake_mem_bounds (entries : List Nat) (fuel : Nat) :
    ∀ first c, c ∈ chainTake entries fuel first → 2 ≤ c ∧ c < entries.length := by
  induction fuel with
  | zero => intro first c h; simp [chainTake] at h
  | succ n ih =>
    intro first c h
    rw [chainTake] at h
    split at h
    · simp at h
    · rename_i hcond
      dsimp only at h
      split at h
      · simp at h
      · rcases List.mem_cons.mp h with rfl | h2
        · omega
        · exact ih _ c h2

/-- C5 (amended): every cluster yielded by walking the FAT lies in
`[2, cluster_count + 1]` (the FAT has `cluster_count + 2` entries), and a no-FAT-chain
extent guarantees only the lower bound `c ≥ 2`: its upper end is never checked against
the cluster heap at construction, out-of-range clusters being reported only at read
time as `ClusterUnavailable`. -/
theorem chain_cluster_bounds :
    (∀ (entries : List Nat) (ccount fuel first c : Nat), entries.length = ccount + 2 →
      c ∈ chainTake entries fuel first → 2 ≤ c ∧ c ≤ ccount + 1) ∧
    (∀ p entries fuel fc dl r, newClustersReader p entries fuel fc dl (some true) = .ok r →
      ∀ c ∈ r.chain, 2 ≤ c) := by
  constructor
  · intro entries ccount fuel first c hlen h
    have := chainTake_mem_bounds entries fuel first c h
    omega
  · intro p entries fuel fc dl r h c hc
    rw [newClustersReader] at h
    split at h
    · exact absurd h (by simp)
    · rename_i hfc
      simp only [Option.getD_some, if_true] at h
      cases dl with
      | none => exact absurd h (by simp)
      | some v =>
        simp only at h
        split at h
        · rename_i hv
          rw [Except.ok.injEq] at h
          subst h
          simp only [List.mem_range'_1] at hc
          omega
        · exact absurd h (by simp)

/-- Witness for `chain_cluster_bounds`: on a four-entry FAT whose entry 2 is EOC, the
walk from cluster 2 yields only cluster 2, inside `[2, cluster_count + 1]`. -/
theorem chain_cluster_bounds_witness :
    2 ∈ chainTake [0, 0, 0xffffffff, 0] 9 2 ∧
    2 ≤ 2 ∧ 2 ≤ 2 + 1 :=
  ⟨by decide, (chain_cluster_bounds.1 [0, 0, 0xffffffff, 0] 2 9 2 2 (by decide) (by decide)).1,
    (chain_cluster_bounds.1 [0, 0, 0xffffffff, 0] 2 9 2 2 (by decide) (by decide)).2⟩

/-- Counterexample to C5 as stated: with `cluster_count = 4` a no-FAT-chain reader on
first cluster 100 is accepted and its chain contains cluster 100, far beyond
`cluster_count + 1 = 5`. -/
theorem chain_bounds_counterexample :
    newClustersReader pEx [] 0 100 (some 1) (some true) = .ok ⟨[100], 1, 0⟩ ∧
    100 ∈ (⟨[100], 1, 0⟩ : ClustersReader).chain ∧ pEx.cluster_count + 1 < 100 := by
  refine ⟨?_, by decide, by decide⟩
  decide

/-- C8 (amended): the AllocationBitmap accounting of `Root::open`.  Starting from
empty slots: the first bitmap entry must carry index bit 0 and the second index bit 1
(otherwise `WrongAllocationBitmap`); a third bitmap entry fails
`TooManyAllocationBitmap` regardless of `number_of_fats`, so up to two bitmaps are
accepted even when `number_of_fats == 1`; at stream exhaustion
`number_of_fats == 2` requires the second slot filled and otherwise the first slot
must be filled, else `NoAllocationBitmap`. -/
theorem bitmap_rules :
    (∀ a rest, a % 2 = 1 →
      runBitmaps (false, false) (a :: rest) = .error .wrongAllocationBitmap) ∧
    (∀ a b rest, a % 2 = 0 → b % 2 = 0 →
      runBitmaps (false, false) (a :: b :: rest) = .error .wrongAllocationBitmap) ∧
    (∀ a b c rest, a % 2 = 0 → b % 2 = 1 →
      runBitmaps (false, false) (a :: b :: c :: rest) = .error .tooManyAllocationBitmap) ∧
    runBitmaps (false, false) [] = .ok (false, false) ∧
    (∀ a, a % 2 = 0 → runBitmaps (false, false) [a] = .ok (true, false)) ∧
    (∀ a b, a % 2 = 0 → b % 2 = 1 → runBitmaps (false, false) [a, b] = .ok (true, true)) ∧
    (∀ n st, finishBitmaps n st = .ok () ↔ (if n = 2 then st.2 = true else st.1 = true)) := by
  refine ⟨?_, ?_, ?_, rfl, ?_, ?_, ?_⟩
  · intro a rest h; simp [runBitmaps, bitmapStep, h]
  · intro a b rest ha hb; simp [runBitmaps, bitmapStep, ha, hb]
  · intro a b c rest ha hb; simp [runBitmaps, bitmapStep, ha, hb]
  · intro a ha; simp [runBitmaps, bitmapStep, ha]
  · intro a b ha hb; simp [runBitmaps, bitmapStep, ha, hb]
  · intro n st
    obtain ⟨s0, s1⟩ := st
    by_cases hn : n = 2 <;> cases s0 <;> cases s1 <;> simp [finishBitmaps, hn]

/-- Witness for `bitmap_rules`: a lone bitmap with index bit 1 is rejected, and with
two FATs a single filled slot is rejected at exhaustion. -/
theorem bitmap_rules_witness :
    runBitmaps (false, false) [1] = .error .wrongAllocationBitmap ∧
    ¬finishBitmaps 2 (true, false) = .ok () :=
  ⟨bitmap_rules.1 1 [] (by decide),
    fun h => by simpa using (bitmap_rules.2.2.2.2.2.2 2 (true, false)).mp h⟩

/-- Counterexample to C8 as stated: with `number_of_fats == 1` a second
AllocationBitmap (index bit 1) is accepted rather than failing
`TooManyAllocationBitmap`, and the root scan then completes successfully. -/
theorem bitmap_claim_counterexample :
    runBitmaps (false, false) [0, 1] = .ok (true, true) ∧
    finishBitmaps 1 (true, true) = .ok () := by
  constructor <;> rfl

/-- C6: input validation of `ClustersReader::new`.  A first cluster below 2 fails
`InvalidFirstCluster`; with the no-FAT-chain flag a missing or zero `data_length`
fails `InvalidDataLength` and otherwise the reader covers the contiguous extent with
`L = data_length`; without the flag an empty FAT chain fails `InvalidFirstCluster`, a
provided `data_length` above `chain.len() × cluster_size` fails `InvalidDataLength`,
a provided one within bounds becomes `L`, and an absent one yields
`L = chain.len() × cluster_size`. -/
theorem clusters_reader_new_spec (p : Params) (entries : List Nat) (fuel fc : Nat)
    (dl : Option Nat) (nfc : Option Bool) :
    (fc < 2 → newClustersReader p entries fuel fc dl nfc = .error .invalidFirstCluster) ∧
    (2 ≤ fc → nfc.getD false = true →
      ((dl = none ∨ dl = some 0) →
        newClustersReader p entries fuel fc dl nfc = .error .invalidDataLength) ∧
      (∀ v, dl = some v → 0 < v →
        newClustersReader p entries fuel fc dl nfc =
          .ok ⟨List.range' fc (((v + p.cluster_size - 1) % u64Size) / p.cluster_size),
            v, 0⟩)) ∧
    (2 ≤ fc → nfc.getD false = false → chainStops entries fuel fc = true →
      (chainTake entries fuel fc = [] →
        newClustersReader p entries fuel fc dl nfc = .error .invalidFirstCluster) ∧
      (chainTake entries fuel fc ≠ [] →
        (∀ v, dl = some v → p.cluster_size * (chainTake entries fuel fc).length < v →
          newClustersReader p entries fuel fc dl nfc = .error .invalidDataLength) ∧
        (∀ v, dl = some v → v ≤ p.cluster_size * (chainTake entries fuel fc).length →
          newClustersReader p entries fuel fc dl nfc =
            .ok ⟨chainTake entries fuel fc, v, 0⟩) ∧
        (dl = none →
          newClustersReader p entries fuel fc dl nfc =
            .ok ⟨chainTake entries fuel fc,
              (chainTake entries fuel fc).length * p.cluster_size, 0⟩))) := by
  refine ⟨?_, ?_, ?_⟩
  · intro h
    rw [newClustersReader, if_pos h]
  · intro hfc hn
    constructor
    · intro hdl
      rcases hdl with rfl | rfl <;> rw [newClustersReader, if_neg (by omega)] <;> simp [hn]
    · intro v hdl hv
      subst hdl
      rw [newClustersReader, if_neg (by omega)]
      simp [hn, hv]
  · intro hfc hn _
    constructor
    · intro hch
      rw [newClustersReader, if_neg (by omega)]
      simp [hn, hch]
    · intro hch
      cases hc : chainTake entries fuel fc with
      | nil => exact absurd hc hch
      | cons a t =>
        refine ⟨?_, ?_, ?_⟩
        · intro v hdl hlt
          subst hdl
          rw [newClustersReader, if_neg (by omega)]
          simp [hn, hc, hlt]
          simpa using hlt
        · intro v hdl hle
          subst hdl
          rw [newClustersReader, if_neg (by omega)]
          simp [hn, hc, not_lt.mpr hle]
          simpa using hle
        · intro hdl
          subst hdl
          rw [newClustersReader, if_neg (by omega)]
          simp [hn, hc, Params.cluster_size]
          ring

/-- Witness for `clusters_reader_new_spec`, exercising all five branches at concrete
inputs (`pEx` has `cluster_size = 512`; the four-entry FAT maps cluster 2 to EOC so
its chain is `[2]`). -/
theorem clusters_reader_new_spec_witness :
    newClustersReader pEx [] 0 1 none none = .error .invalidFirstCluster ∧
    newClustersReader pEx [] 0 2 (some 0) (some true) = .error .invalidDataLength ∧
    newClustersReader pEx [] 0 2 (some 600) (some true) = .ok ⟨[2, 3], 600, 0⟩ ∧
    newClustersReader pEx [0, 0, 0xffffffff, 0] 9 2 (some 9999) none = .error .invalidDataLength ∧
    newClustersReader pEx [0, 0, 0xffffffff, 0] 9 2 none none = .ok ⟨[2], 512, 0⟩ :=
  ⟨(clusters_reader_new_spec pEx [] 0 1 none none).1 (by decide),
   ((clusters_reader_new_spec pEx [] 0 2 (some 0) (some true)).2.1 (by decide) (by decide)).1
     (Or.inr rfl),
   ((clusters_reader_new_spec pEx [] 0 2 (some 600) (some true)).2.1 (by decide) (by decide)).2
     600 rfl (by decide),
   (((clusters_reader_new_spec pEx [0, 0, 0xffffffff, 0] 9 2 (some 9999) none).2.2 (by decide)
     (by decide) (by decide)).2 (by decide)).1 9999 rfl (by decide),
   (((clusters_reader_new_spec pEx [0, 0, 0xffffffff, 0] 9 2 none none).2.2 (by decide)
     (by decide) (by decide)).2 (by decide)).2.2 rfl⟩

/-- C7: the boot-sector validation of `Root::open` fails with `NotExFat` exactly when
the signature check fails; past that, with `InvalidBytesPerSectorShift` exactly when
byte 108 is outside `[9, 12]`; past that, with `InvalidSectorsPerClusterShift` exactly
when byte 109 exceeds `25 −` byte 108; past that, with `InvalidNumberOfFats` exactly
when byte 110 is neither 1 nor 2, or the volume-flags active-FAT bit is 1 while
`number_of_fats` is 1. -/
theorem boot_sector_checks (boot : List Nat) :
    (checkBootSector boot = .error .notExFat ↔ bootSigOk boot = false) ∧
    (bootSigOk boot = true →
      (checkBootSector boot = .error .invalidBytesPerSectorShift ↔
        ¬(9 ≤ boot.getD 108 0 ∧ boot.getD 108 0 ≤ 12))) ∧
    (bootSigOk boot = true → 9 ≤ boot.getD 108 0 → boot.getD 108 0 ≤ 12 →
      (checkBootSector boot = .error .invalidSectorsPerClusterShift ↔
        ¬(boot.getD 109 0 ≤ 25 - boot.getD 108 0))) ∧
    (bootSigOk boot = true → 9 ≤ boot.getD 108 0 → boot.getD 108 0 ≤ 12 →
      boot.getD 109 0 ≤ 25 - boot.getD 108 0 →
      (checkBootSector boot = .error .invalidNumberOfFats ↔
        (¬(boot.getD 110 0 = 1 ∨ boot.getD 110 0 = 2) ∨
          (readLE boot 106 2 % 2 = 1 ∧ boot.getD 110 0 = 1)))) := by
  by_cases hsig : bootSigOk boot = true
  case neg =>
    have hs : bootSigOk boot = false := by
      revert hsig; cases bootSigOk boot <;> simp
    have hres : checkBootSector boot = .error .notExFat := by
      rw [checkBootSector, if_pos hs]
    refine ⟨by simp [hres, hs], ?_, ?_, ?_⟩ <;> intro h1 <;> simp [hs] at h1
  case pos =>
    by_cases h108 : 9 ≤ boot.getD 108 0 ∧ boot.getD 108 0 ≤ 12
    case neg =>
      have hres : checkBootSector boot = .error .invalidBytesPerSectorShift := by
        rw [checkBootSector, if_neg (by simp [hsig]), if_pos h108]
      refine ⟨by simp [hres, hsig], ?_, ?_, ?_⟩
      · intro _; rw [hres]; exact iff_of_true rfl h108
      · intro _ ha hb; exact absurd ⟨ha, hb⟩ h108
      · intro _ ha hb _; exact absurd ⟨ha, hb⟩ h108
    case pos =>
      by_cases h109 : boot.getD 109 0 ≤ 25 - boot.getD 108 0
      case neg =>
        have hres : checkBootSector boot = .error .invalidSectorsPerClusterShift := by
          rw [checkBootSector, if_neg (by simp [hsig]), if_neg (not_not_intro h108),
            if_pos h109]
        refine ⟨by simp [hres, hsig], ?_, ?_, ?_⟩
        · intro _; rw [hres]
          exact ⟨fun h => absurd h (by simp), fun h => absurd h108 h⟩
        · intro _ _ _; rw [hres]; exact iff_of_true rfl h109
        · intro _ _ _ hb; exact absurd hb h109
      case pos =>
        have hlast : checkBootSector boot =
            (if ¬(boot.getD 110 0 = 1 ∨ boot.getD 110 0 = 2) then
              Except.error RootError.invalidNumberOfFats
            else if readLE boot 106 2 % 2 = 0 ∨ boot.getD 110 0 = 2 then
              .ok
                { fat_offset := readLE boot 80 4
                  fat_length := readLE boot 84 4
                  cluster_heap_offset := readLE boot 88 4
                  cluster_count := readLE boot 92 4
                  first_cluster_of_root_directory := readLE boot 96 4
                  volume_flags := readLE boot 106 2
                  bytes_per_sector := 2 ^ boot.getD 108 0
                  sectors_per_cluster := 2 ^ boot.getD 109 0
                  number_of_fats := boot.getD 110 0 }
            else .error .invalidNumberOfFats) := by
          rw [checkBootSector, if_neg (by simp [hsig]), if_neg (not_not_intro h108),
            if_neg (not_not_intro h109)]
          rfl
        by_cases h110 : boot.getD 110 0 = 1 ∨ boot.getD 110 0 = 2
        case neg =>
          have hres : checkBootSector boot = .error .invalidNumberOfFats :=
            hlast.trans (by rw [if_pos h110])
          refine ⟨by simp [hres, hsig], ?_, ?_, ?_⟩
          · intro _; rw [hres]
            exact ⟨fun h => absurd h (by simp), fun h => absurd h108 h⟩
          · intro _ _ _; rw [hres]
            exact ⟨fun h => absurd h (by simp), fun h => absurd h109 h⟩
          · intro _ _ _ _; rw [hres]; exact iff_of_true rfl (Or.inl h110)
        case pos =>
          by_cases hact : readLE boot 106 2 % 2 = 0 ∨ boot.getD 110 0 = 2
          case pos =>
            have hres := hlast.trans (by rw [if_neg (not_not_intro h110), if_pos hact])
            refine ⟨by simp [hres, hsig], ?_, ?_, ?_⟩
            · intro _; rw [hres]
              exact ⟨fun h => absurd h (by simp), fun h => absurd h108 h⟩
            · intro _ _ _; rw [hres]
              exact ⟨fun h => absurd h (by simp), fun h => absurd h109 h⟩
            · intro _ _ _ _; rw [hres]
              constructor
              · intro h; exact absurd h (by simp)
              · intro h
                rcases h with h | ⟨ha, hb⟩
                · exact absurd h110 h
                · rcases hact with hc | hc
                  · exact absurd ha (by omega)
                  · exact absurd hb (by omega)
          case neg =>
            have hres := hlast.trans (by rw [if_neg (not_not_intro h110), if_neg hact])
            refine ⟨by simp [hres, hsig], ?_, ?_, ?_⟩
            · intro _; rw [hres]
              exact ⟨fun h => absurd h (by simp), fun h => absurd h108 h⟩
            · intro _ _ _; rw [hres]
              exact ⟨fun h => absurd h (by simp), fun h => absurd h109 h⟩
            · intro _ _ _ _; rw [hres]
              constructor
              · intro _
                right
                have hm : readLE boot 106 2 % 2 ≠ 0 := fun h => hact (Or.inl h)
                have hn2 : boot.getD 110 0 ≠ 2 := fun h => hact (Or.inr h)
                have hm2 : readLE boot 106 2 % 2 < 2 := Nat.mod_lt _ (by omega)
                rcases h110 with h | h <;> omega
              · intro _; rfl

/-- Witness for `boot_sector_checks`: an all-zero boot sector is rejected as
`NotExFat`, and a boot sector carrying the exFAT signature but a zero
`BytesPerSectorShift` is rejected as `InvalidBytesPerSectorShift`. -/
theorem boot_sector_checks_witness :
    checkBootSector bootZero = .error .notExFat ∧
    checkBootSector bootBadBps = .error .invalidBytesPerSectorShift :=
  ⟨(boot_sector_checks bootZero).1.mpr (by decide),
   ((boot_sector_checks bootBadBps).2.1 (by decide)).mpr (by decide)⟩

theorem clusterRead_reduce (p : Params) (disk : Nat → Nat) (r : ClustersReader)
    (bufLen : Nat) (h : ¬(bufLen = 0 ∨ r.offset = r.data_length)) (cl : Nat)
    (hget : r.chain.get? (r.offset / p.cluster_size) = some cl) :
    clusterRead p disk r bufLen =
      (match p.cluster_offset cl with
       | none => (.error (.clusterUnavailable cl), r)
       | some co =>
         (.ok (readAmount p r bufLen,
           (List.range (readAmount p r bufLen)).map fun i =>
             disk (co + r.offset % p.cluster_size + i)),
          { r with offset := r.offset + readAmount p r bufLen })) := by
  rw [clusterRead, if_neg h]
  simp only [hget, readAmount]

/-- C1: the read contract of `ClustersReader::read`.  With the construction invariants
(`cluster_size > 0`, `offset ≤ L`, `L ≤ chain.len() × cluster_size`): the call returns
0 exactly when the buffer is empty or `offset = L`; otherwise the current cluster
`chain[offset / cluster_size]` exists and either its heap offset is undefined and the
read fails `ClusterUnavailable` naming it with the offset unchanged, or the read
returns `amount = min(buf.len(), cluster_size − offset % cluster_size, L − offset) > 0`
bytes taken from the byte source at `cluster_offset(c) + offset % cluster_size`,
advancing the offset by `amount`. -/
theorem cluster_read_contract (p : Params) (disk : Nat → Nat) (r : ClustersReader)
    (bufLen : Nat) (hcs : 0 < p.cluster_size) (hoff : r.offset ≤ r.data_length)
    (hlen : r.data_length ≤ r.chain.length * p.cluster_size) :
    ((bufLen = 0 ∨ r.offset = r.data_length) →
      clusterRead p disk r bufLen = (.ok (0, []), r)) ∧
    (¬(bufLen = 0 ∨ r.offset = r.data_length) →
      ∃ cl, r.chain.get? (r.offset / p.cluster_size) = some cl ∧
        (p.cluster_offset cl = none →
          clusterRead p disk r bufLen = (.error (.clusterUnavailable cl), r)) ∧
        (∀ co, p.cluster_offset cl = some co →
          clusterRead p disk r bufLen =
            (.ok (readAmount p r bufLen,
              (List.range (readAmount p r bufLen)).map fun i =>
                disk (co + r.offset % p.cluster_size + i)),
              { r with offset := r.offset + readAmount p r bufLen }) ∧
          0 < readAmount p r bufLen)) := by
  constructor
  · intro h; rw [clusterRead, if_pos h]
  · intro h
    have hb : ¬bufLen = 0 ∧ ¬r.offset = r.data_length := not_or.mp h
    have hlt : r.offset < r.data_length := lt_of_le_of_ne hoff hb.2
    have hidx : r.offset / p.cluster_size < r.chain.length :=
      (Nat.div_lt_iff_lt_mul hcs).mpr (lt_of_lt_of_le hlt hlen)
    refine ⟨r.chain.get ⟨_, hidx⟩, List.get?_eq_get hidx, ?_, ?_⟩
    · intro hco
      rw [clusterRead_reduce p disk r bufLen h _ (List.get?_eq_get hidx), hco]
    · intro co hco
      refine ⟨?_, ?_⟩
      · rw [clusterRead_reduce p disk r bufLen h _ (List.get?_eq_get hidx), hco]
      · have h1 : 0 < bufLen := Nat.pos_of_ne_zero hb.1
        have h2 : r.offset % p.cluster_size < p.cluster_size := Nat.mod_lt _ hcs
        simp only [readAmount, lt_min_iff]
        exact ⟨h1, by omega, by omega⟩

/-- Witness for `cluster_read_contract`: a concrete reader positioned at `offset = L`
returns 0 (EOF). -/
theorem cluster_read_contract_witness :
    clusterRead pEx (fun _ => 0) ⟨[2], 10, 10⟩ 4 = (.ok (0, []), ⟨[2], 10, 10⟩) :=
  (cluster_read_contract pEx (fun _ => 0) ⟨[2], 10, 10⟩ 4 (by decide) (by decide)
    (by decide)).1 (Or.inr rfl)

theorem newClustersReader_some_ok (p : Params) (entries : List Nat) (fuel fc v : Nat)
    (nfc : Option Bool) (r : ClustersReader)
    (h : newClustersReader p entries fuel fc (some v) nfc = .ok r) :
    r.data_length = v ∧ r.offset = 0 := by
  simp only [newClustersReader] at h
  split at h
  · exact absurd h (by simp)
  · split at h
    · split at h
      · rw [Except.ok.injEq] at h
        subst h
        exact ⟨rfl, rfl⟩
      · exact absurd h (by simp)
    · split at h
      · exact absurd h (by simp)
      · split at h
        · exact absurd h (by simp)
        · rw [Except.ok.injEq] at h
          subst h
          exact ⟨rfl, rfl⟩

theorem readLoop_exact (p : Params) (disk : Nat → Nat) (bufLen : Nat)
    (hcs : 0 < p.cluster_size) (hbuf : 0 < bufLen) :
    ∀ fuel r, r.offset ≤ r.data_length →
      r.data_length ≤ r.chain.length * p.cluster_size →
      (∀ c ∈ r.chain, (p.cluster_offset c).isSome) →
      r.data_length - r.offset < fuel →
      readLoop p disk bufLen fuel r = some (r.data_length - r.offset) := by
  intro fuel
  induction fuel with
  | zero => intro r _ _ _ hf; omega
  | succ n ih =>
    intro r hoff hlen hch hf
    by_cases heq : r.offset = r.data_length
    · have h0 : clusterRead p disk r bufLen = (.ok (0, []), r) := by
        rw [clusterRead, if_pos (Or.inr heq)]
      rw [readLoop, h0]
      simp [heq]
    · have hlt : r.offset < r.data_length := lt_of_le_of_ne hoff heq
      have hne : ¬(bufLen = 0 ∨ r.offset = r.data_length) := by
        push_neg
        exact ⟨by omega, heq⟩
      have hidx : r.offset / p.cluster_size < r.chain.length :=
        (Nat.div_lt_iff_lt_mul hcs).mpr (lt_of_lt_of_le hlt hlen)
      have hget : r.chain.get? (r.offset / p.cluster_size) =
          some (r.chain.get ⟨_, hidx⟩) := List.get?_eq_get hidx
      have hmem : r.chain.get ⟨_, hidx⟩ ∈ r.chain := List.get_mem _ _ _
      obtain ⟨co, hco⟩ := Option.isSome_iff_exists.mp (hch _ hmem)
      have hread := clusterRead_reduce p disk r bufLen hne _ hget
      rw [hco] at hread
      set amt := readAmount p r bufLen with hamt
      have hm2 : r.offset % p.cluster_size < p.cluster_size := Nat.mod_lt _ hcs
      have hpos : 0 < amt := by
        rw [hamt]
        simp only [readAmount, lt_min_iff]
        exact ⟨hbuf, by omega, by omega⟩
      have hle : amt ≤ r.data_length - r.offset := by
        rw [hamt]
        simp only [readAmount]
        exact (min_le_right _ _).trans (min_le_right _ _)
      have ih2 := ih { r with offset := r.offset + amt } (by dsimp; omega) hlen hch
        (by dsimp; omega)
      rw [readLoop, hread]
      dsimp only
      rw [if_neg (by omega), ih2]
      dsimp only
      simp only [Option.map_some']
      exact congrArg some (by omega)

/-- C4: a `File` built from a StreamExtension has `len() = valid_data_length`; with
`first_cluster == 0` it exposes the empty reader whose `read` always returns 0;
otherwise it wraps a cluster reader whose logical length is `valid_data_length` (not
`data_length`), so a sequential read loop from offset 0 over available clusters
returns exactly `valid_data_length` bytes before EOF even when more clusters are
allocated. -/
theorem file_new_spec (p : Params) (entries : List Nat) (fuel : Nat)
    (stream : StreamEntry) (f : FFile) (hcs : 0 < p.cluster_size)
    (hnew : newFile p entries fuel stream = .ok f) :
    f.len = stream.valid_data_length ∧
    (stream.first_cluster = 0 → f.reader = .empty ∧
      ∀ disk bufLen, fileRead p disk f bufLen = (.ok (0, []), f)) ∧
    (stream.first_cluster ≠ 0 → ∃ r, f.reader = .cluster r ∧
      r.data_length = stream.valid_data_length ∧ r.offset = 0 ∧
      ∀ disk lfuel bufLen, 0 < bufLen →
        r.data_length ≤ r.chain.length * p.cluster_size →
        (∀ c ∈ r.chain, (p.cluster_offset c).isSome) →
        r.data_length < lfuel →
        readLoop p disk bufLen lfuel r = some stream.valid_data_length) := by
  by_cases h0 : stream.first_cluster = 0
  · simp only [newFile] at hnew
    rw [if_pos h0] at hnew
    have hf : f = ⟨stream.valid_data_length, .empty⟩ := ((Except.ok.injEq _ _).mp hnew).symm
    subst hf
    exact ⟨rfl, fun _ => ⟨rfl, fun disk bufLen => rfl⟩, fun hn => absurd h0 hn⟩
  · simp only [newFile] at hnew
    rw [if_neg h0] at hnew
    cases hr : newClustersReader p entries fuel stream.first_cluster
        (some stream.valid_data_length) (some stream.no_fat_chain) with
    | error e =>
      rw [hr] at hnew
      exact absurd hnew (by simp)
    | ok r =>
      rw [hr] at hnew
      have hf : f = ⟨stream.valid_data_length, .cluster r⟩ := ((Except.ok.injEq _ _).mp hnew).symm
      subst hf
      obtain ⟨hdl, hoffz⟩ := newClustersReader_some_ok p entries fuel _ _ _ r hr
      refine ⟨rfl, fun hz => absurd hz h0, fun _ => ⟨r, rfl, hdl, hoffz, ?_⟩⟩
      intro disk lfuel bufLen hb hlen2 hch hfu
      have hloop := readLoop_exact p disk bufLen hcs hb lfuel r (by omega) hlen2 hch (by omega)
      rw [hloop, hoffz, hdl]
      simp

/-- Witness for `file_new_spec`: on a FAT whose cluster 2 is EOC, a file with
`valid_data_length = 10` over a 512-byte allocated cluster reads exactly 10 bytes
before EOF. -/
theorem file_new_spec_witness :
    readLoop pEx (fun _ => 0) 4 11 ⟨[2], 10, 0⟩ = some 10 := by
  obtain ⟨r, hr, _, _, hloop⟩ :=
    (file_new_spec pEx [0, 0, 0xffffffff, 0] 9 ⟨false, 2, 10, 512⟩
      ⟨10, .cluster ⟨[2], 10, 0⟩⟩ (by decide) (by decide)).2.2 (by decide)
  have hre : r = ⟨[2], 10, 0⟩ := by
    simpa using hr.symm
  subst hre
  exact hloop (fun _ => 0) 11 4 (by decide) (by decide) (by decide) (by decide)

/-- C9 (code bug): the count computation of `ClustersReader::new` for a no-FAT-chain
extent (`(data_length + cluster_size - 1) / cluster_size`, cluster.rs line 39) is an
unchecked `u64` add.  With `data_length = 2^64 − 1` and `cluster_size = 512` the sum
wraps (a panic in debug builds): the released code computes a cluster count of 0, so
construction succeeds with an empty chain yet `L = 2^64 − 1`, and the very first read
panics on out-of-bounds chain indexing instead of any typed error. -/
theorem overflow_count_bug :
    newClustersReader pEx [] 0 2 (some (u64Size - 1)) (some true) =
      .ok ⟨[], u64Size - 1, 0⟩ ∧
    clusterRead pEx (fun _ => 0) ⟨[], u64Size - 1, 0⟩ 1 =
      (.error .panicIndexOutOfBounds, ⟨[], u64Size - 1, 0⟩) := by
  exact ⟨rfl, rfl⟩

end ExFat
